import Mathlib

/-
  Verification of the doorprize draw-session coordination logic.

  Shallow embedding of the draw controllers (Admin in
  src/src/pages/AdminPage.tsx and src/src/components/MultiDrawingArea.tsx,
  VIP in src/unnamed/part_000), the winner finalizer, the shared
  drawing-state record (src/src/hooks/useFirestore.ts), and the display
  renderer (src/unnamed/part_001).  Pure functions from the source are
  translated to Lean functions; Firestore documents become explicit state
  values; JavaScript exceptions become Except.
-/

/-- A participant record (collection `participants`; shape per the local
interfaces in the source and the data model of the Participant/Prize/Winner
repository). -/
structure Participant where
  id : String
  name : String
  addedAt : Nat
  email : Option String
deriving DecidableEq, Repr

/-- A winner record (collection `winners`; shape per the Winner interface
declared in src/unnamed/part_004: id, name, wonAt, prizeId?, prizeName?,
drawSession?, email?). -/
structure Winner where
  id : String
  name : String
  wonAt : Nat
  prizeId : Option String
  prizeName : Option String
  drawSession : Option String
  email : Option String
deriving DecidableEq, Repr

/-- A prize record (collection `prizes`).  `remainingQuota` is kept as Int so
that the Math.max(0, ...) arithmetic of the source stays explicit. -/
structure Prize where
  id : String
  name : String
  image : Option String
  quota : Int
  remainingQuota : Int
  createdAt : Nat
deriving DecidableEq, Repr

/-- JavaScript strict equality on the nullable session fields.  A winner
document with a missing drawSession (undefined) never equals a string or
null session value, so both mixed cases are false. -/
def sessionEq : Option String → Option String → Bool
  | some a, some b => a == b
  | _, _ => false

/-- Pool of eligible participants: participants whose display name does not
occur among the current winners (part_000 lines 49-53 and part_003 lines
68-71: `participants.filter(p => !winnerNames.includes(p.name))`). -/
def availableParticipants (participants : List Participant)
    (currentWinners : List Winner) : List Participant :=
  participants.filter (fun p => !((currentWinners.map Winner.name).contains p.name))

/-- Draw count (part_000 lines 56-58 and part_003 lines 74-76):
min(remainingQuota, poolSize) when a prize is selected, otherwise
min(settings.multiDrawCount, poolSize). -/
def drawCountOf (selectedPrize : Option Prize) (multiDrawCount : Int)
    (availableLen : Nat) : Int :=
  match selectedPrize with
  | some p => min p.remainingQuota (availableLen : Int)
  | none => min multiDrawCount (availableLen : Int)

/-- JavaScript `list.slice(0, e)`: a negative end index counts from the end
of the list; the result is clamped to the list. -/
def jsSliceTo {α : Type} (l : List α) (e : Int) : List α :=
  l.take ((if e < 0 then (l.length : Int) + e else e).toNat)

/-- Winner records built from the selected participants (part_003 lines
214-223): id is participantId-now-index, name copied from the participant,
prize fields from the selected prize, drawSession the session id. -/
def mkWinners (p : Prize) (sid : String) (now : Nat) : Nat → List Participant → List Winner
  | _, [] => []
  | i, q :: qs =>
    { id := q.id ++ "-" ++ toString now ++ "-" ++ toString i,
      name := q.name, wonAt := now, prizeId := some p.id,
      prizeName := some p.name, drawSession := some sid,
      email := q.email } :: mkWinners p sid now (i + 1) qs

/-- generateWinners (part_003 lines 208-224, same logic in part_000 lines
157-174): empty when no prize is selected or the pool is empty; otherwise
some permutation of the pool (the source shuffles with the host sort and an
inconsistent random comparator, so the permutation is a parameter here)
truncated with slice(0, drawCount) and mapped to winner records. -/
def generateWinners (selectedPrize : Option Prize)
    (available shuffled : List Participant) (dc : Int) (sid : String)
    (now : Nat) : List Winner :=
  match selectedPrize with
  | none => []
  | some p =>
    if available.isEmpty then []
    else mkWinners p sid now 0 (jsSliceTo shuffled dc)

/-- saveWinnersToDatabase (part_000 lines 177-205): nothing to save for an
empty batch (returns false); if the winners collection already holds records
tagged with the current draw session, skip writing and report success;
otherwise append every winner of the batch. -/
def saveWinnersToDatabase (db : List Winner) (lastDrawSession : Option String)
    (ws : List Winner) : List Winner × Bool :=
  if ws.isEmpty then (db, false)
  else if 0 < (db.filter (fun w => sessionEq w.drawSession lastDrawSession)).length then
    (db, true)
  else (db ++ ws, true)

/-- Admin-side deduplication in stopDrawing (AdminPage.tsx lines 211-214):
only winners whose name is not already present in the winners collection are
added. -/
def uniqueNewWinners (existing ws : List Winner) : List Winner :=
  ws.filter (fun w => !((existing.map Winner.name).contains w.name))

/-- updatePrizeQuota (part_000 lines 208-233): look the prize up by id; if
found, set its remainingQuota to max(0, current − winnersCount). -/
def updatePrizeQuota (prizes : List Prize) (pid : String)
    (winnersCount : Nat) : List Prize :=
  match prizes.find? (fun p => p.id == pid) with
  | none => prizes
  | some cur =>
    prizes.map (fun p =>
      if p.id == pid then
        { p with remainingQuota := max 0 (cur.remainingQuota - (winnersCount : Int)) }
      else p)

/-- The VIP finalize sequence in the stop branch of handleMainButton (part_000
lines 302-338): save the batch; if saving reported success (including the
already-processed skip), update the prize quota with the full batch length
`predeterminedWinners.length`. -/
def vipFinalize (db : List Winner) (prizes : List Prize)
    (lastDrawSession : Option String) (ws : List Winner) (pid : String) :
    List Winner × List Prize :=
  let r := saveWinnersToDatabase db lastDrawSession ws
  if r.2 then (r.1, updatePrizeQuota prizes pid ws.length) else (r.1, prizes)

/-
  Cross-controller finalization race (part_000 handleMainButton lines
  286-339, part_003 handleStopDrawClick lines 292-327 with AdminPage
  stopDrawing lines 166-257).  Each controller first reads the store to
  decide what to write (the check), then applies its writes (the commit).
  In the race window both checks read the same pre-write state; in the
  serialized run the second check sees the writes of the first controller.
-/

/-- Shared durable state touched by finalization: the winners collection,
the remaining quota of the selected prize, and the replicated
vipProcessedWinners flag of the drawing-state record. -/
structure FinalizeStore where
  winners : List Winner
  quota : Int
  vipProcessedShared : Bool
deriving DecidableEq, Repr

/-- Writes a controller decides to perform after its check. -/
structure FinalizePending where
  addWinners : List Winner
  newQuota : Option Int
  setVipFlag : Bool
deriving DecidableEq, Repr

/-- Finalize decision of the VIP controller (part_000 lines 302-325): skip on
an empty batch; with session-tagged winners already present, write nothing
but still update the quota with the batch length and set the shared flag;
otherwise persist the batch, update the quota, and set the shared flag. -/
def vipFinalizeCheck (s : FinalizeStore) (sid : String) (ws : List Winner) :
    FinalizePending :=
  if ws.isEmpty then { addWinners := [], newQuota := none, setVipFlag := false }
  else if 0 < (s.winners.filter (fun w => sessionEq w.drawSession (some sid))).length then
    { addWinners := [], newQuota := some (max 0 (s.quota - (ws.length : Int))),
      setVipFlag := true }
  else
    { addWinners := ws, newQuota := some (max 0 (s.quota - (ws.length : Int))),
      setVipFlag := true }

/-- Finalize decision of the admin controller (AdminPage stopDrawing lines
171-243): when the VIP-processed signal (shared flag or the local flag of
the admin browser) is set and no final winners were passed, skip all database
operations; otherwise add only winners with names not yet in the winners
collection and update the quota with that added count. -/
def adminFinalizeCheck (s : FinalizeStore) (adminLocalVipFlag : Bool)
    (ws : List Winner) : FinalizePending :=
  if (s.vipProcessedShared || adminLocalVipFlag) && ws.isEmpty then
    { addWinners := [], newQuota := none, setVipFlag := false }
  else
    let uniq := uniqueNewWinners s.winners ws
    { addWinners := uniq, newQuota := some (max 0 (s.quota - (uniq.length : Int))),
      setVipFlag := false }

/-- Apply the pending writes of a controller to the store. -/
def applyPending (s : FinalizeStore) (p : FinalizePending) : FinalizeStore :=
  { winners := s.winners ++ p.addWinners,
    quota := p.newQuota.getD s.quota,
    vipProcessedShared := s.vipProcessedShared || p.setVipFlag }

/-- Both controllers finalize inside the race window: each check reads the
initial store, before either write has propagated, then both commits land. -/
def raceFinalize (s : FinalizeStore) (sid : String) (ws : List Winner)
    (adminLocal : Bool) : FinalizeStore :=
  applyPending (applyPending s (vipFinalizeCheck s sid ws))
    (adminFinalizeCheck s adminLocal ws)

/-- Serialized finalization: the VIP finalizes first, and the admin check
runs against a store that already reflects the VIP writes. -/
def serializedFinalize (s : FinalizeStore) (sid : String) (ws : List Winner)
    (adminLocal : Bool) : FinalizeStore :=
  let s1 := applyPending s (vipFinalizeCheck s sid ws)
  applyPending s1 (adminFinalizeCheck s1 adminLocal ws)

/-
  The shared drawing-state record (document drawingState/current, schema
  per the DrawingState interface in src/src/hooks/useFirestore.ts lines
  506-525 and its DEFAULT_DRAWING_STATE lines 528-542).
-/

/-- The replicated drawing-state record. -/
structure DrawRecord where
  isDrawing : Bool
  currentWinners : List Winner
  finalWinners : List Winner
  predeterminedWinners : List Winner
  participants : List Participant
  selectedPrizeId : Option String
  selectedPrizeName : Option String
  selectedPrizeImage : Option String
  selectedPrizeQuota : Nat
  shouldStartSpinning : Bool
  shouldStartSlowdown : Bool
  showWinnerDisplay : Bool
  shouldResetToReady : Bool
  vipProcessedWinners : Bool
  vipControlActive : Bool
  drawStartTime : Option Nat
  lastUpdated : Option Nat
deriving DecidableEq, Repr

/-- DEFAULT_DRAWING_STATE (useFirestore.ts lines 528-542): idle, no winners,
no snapshot, every flag false, no prize selected, quota 0. -/
def defaultDrawingState : DrawRecord :=
  { isDrawing := false, currentWinners := [], finalWinners := [],
    predeterminedWinners := [], participants := [], selectedPrizeId := none,
    selectedPrizeName := none, selectedPrizeImage := none,
    selectedPrizeQuota := 0, shouldStartSpinning := false,
    shouldStartSlowdown := false, showWinnerDisplay := false,
    shouldResetToReady := false, vipProcessedWinners := false,
    vipControlActive := false, drawStartTime := none, lastUpdated := none }

/-- Application-level state seen by the admin page: the shared record, the
three repository collections, and the localStorage flags of the admin
browser. -/
structure AppState where
  record : DrawRecord
  winners : List Winner
  prizes : List Prize
  participants : List Participant
  vipProcessedLocal : Bool
  vipSessionLocal : Option String
deriving DecidableEq, Repr

/-- clearCurrentWinners (AdminPage.tsx lines 260-279, same updates in
part_003 handleConfirmDelete lines 384-408): remove the localStorage VIP
flags and publish a record update that empties currentWinners, finalWinners
and predeterminedWinners and resets the display and VIP flags.  No
repository collection is touched. -/
def clearCurrentWinners (s : AppState) : AppState :=
  { s with
    vipProcessedLocal := false,
    vipSessionLocal := none,
    record := { s.record with
      currentWinners := [], showWinnerDisplay := false, finalWinners := [],
      predeterminedWinners := [], shouldStartSlowdown := false,
      shouldStartSpinning := false, vipProcessedWinners := false,
      vipControlActive := false } }

/-
  Draw-start validation and commit (part_003 validateDraw lines 188-205 and
  handleDrawClick lines 227-273; the VIP variant in part_000 lines 140-154
  has the same four checks without the VIP-control guard).
-/

/-- VIP-control status of the admin component. -/
inductive VipStatus where
  | idle
  | active
  | processing
  | completed
deriving DecidableEq, Repr

/-- validateDraw (part_003 lines 188-205): VIP-control guard, then the four
checks in source order — no prize selected, zero remaining quota, empty
available pool, zero draw count — each with its operator message. -/
def validateDraw (vipActive : Bool) (vipStatus : VipStatus)
    (selectedPrize : Option Prize) (availableLen : Nat) (dc : Int) :
    Option String :=
  if vipActive && (vipStatus == VipStatus.active) then
    some "VIP sedang mengontrol undian. Silakan tunggu."
  else
    match selectedPrize with
    | none => some "Silakan pilih hadiah sebelum memulai undian."
    | some p =>
      if p.remainingQuota = 0 then
        some "Hadiah ini tidak memiliki kuota tersisa."
      else if availableLen = 0 then
        some "Tidak ada peserta yang tersedia untuk undian (semua sudah menang)."
      else if dc = 0 then
        some "Tidak ada pemenang yang dapat diundi dengan pengaturan saat ini."
      else none

/-- The commit published on a successful draw start (part_003 lines
249-264): predetermined winners generated and stored in the record, spin
not yet started, display hidden, prize snapshot and pool snapshot taken,
VIP flags reset; the VIP localStorage keys of the admin browser are
removed. -/
def commitDraw (s : AppState) (sp : Option Prize) (ws : List Winner)
    (now : Nat) : AppState :=
  { s with
    vipProcessedLocal := false,
    vipSessionLocal := none,
    record := { s.record with
      isDrawing := true, currentWinners := [], shouldStartSpinning := false,
      showWinnerDisplay := false,
      selectedPrizeName := sp.map Prize.name,
      selectedPrizeImage := sp.bind Prize.image,
      selectedPrizeQuota :=
        (match sp with
         | some p => if p.remainingQuota ≤ 0 then 1 else p.remainingQuota.toNat
         | none => 1),
      selectedPrizeId := sp.map Prize.id,
      participants := s.participants,
      drawStartTime := some now,
      finalWinners := ws, predeterminedWinners := ws,
      vipProcessedWinners := false, vipControlActive := false } }

/-- Real-time selected prize (part_003 lines 62-65): the selected prize id
of the record looked up in the live prizes collection. -/
def selectedPrizeOf (s : AppState) : Option Prize :=
  s.record.selectedPrizeId.bind (fun pid => s.prizes.find? (fun p => p.id == pid))

/-- handleDrawClick (part_003 lines 227-273): the early VIP-control alert,
then validateDraw; on any failure the handler alerts and returns before any
write to the shared record or the repository; otherwise it generates the
winners and publishes the commit. -/
def handleDrawClick (s : AppState) (vipActive : Bool) (vipStatus : VipStatus)
    (multiDrawCount : Int) (shuffled : List Participant) (sid : String)
    (now : Nat) : AppState × Option String :=
  if vipActive && !(vipStatus == VipStatus.completed) then
    (s, some "VIP sedang mengontrol undian. Silakan tunggu VIP selesai atau gunakan panel VIP.")
  else
    match validateDraw vipActive vipStatus (selectedPrizeOf s)
        (availableParticipants s.participants s.record.currentWinners).length
        (drawCountOf (selectedPrizeOf s) multiDrawCount
          (availableParticipants s.participants s.record.currentWinners).length) with
    | some m => (s, some m)
    | none =>
      (commitDraw s (selectedPrizeOf s)
        (generateWinners (selectedPrizeOf s)
          (availableParticipants s.participants s.record.currentWinners) shuffled
          (drawCountOf (selectedPrizeOf s) multiDrawCount
            (availableParticipants s.participants s.record.currentWinners).length)
          sid now) now, none)

/-
  updateDrawingState with not-found recovery (useFirestore.ts lines 787-828;
  the first copy, lines 277-303, has the same recovery).  A pending update
  is a patch: `none` fields are absent from the update object.
-/

/-- A pending update to the drawing-state record. -/
structure RecordPatch where
  isDrawing : Option Bool
  currentWinners : Option (List Winner)
  finalWinners : Option (List Winner)
  predeterminedWinners : Option (List Winner)
  participants : Option (List Participant)
  selectedPrizeId : Option (Option String)
  selectedPrizeName : Option (Option String)
  selectedPrizeImage : Option (Option String)
  selectedPrizeQuota : Option Nat
  shouldStartSpinning : Option Bool
  shouldStartSlowdown : Option Bool
  showWinnerDisplay : Option Bool
  shouldResetToReady : Option Bool
  vipProcessedWinners : Option Bool
  vipControlActive : Option Bool
  drawStartTime : Option (Option Nat)
deriving DecidableEq, Repr

/-- A patch with no keys at all (Object.keys(updates).length = 0). -/
def emptyPatch : RecordPatch :=
  { isDrawing := none, currentWinners := none, finalWinners := none,
    predeterminedWinners := none, participants := none,
    selectedPrizeId := none, selectedPrizeName := none,
    selectedPrizeImage := none, selectedPrizeQuota := none,
    shouldStartSpinning := none, shouldStartSlowdown := none,
    showWinnerDisplay := none, shouldResetToReady := none,
    vipProcessedWinners := none, vipControlActive := none,
    drawStartTime := none }

/-- Whole-field-replace merge of a patch into a record; lastUpdated is
always stamped with the server timestamp (useFirestore.ts lines 794-797). -/
def applyPatch (d : DrawRecord) (u : RecordPatch) (now : Nat) : DrawRecord :=
  { isDrawing := u.isDrawing.getD d.isDrawing,
    currentWinners := u.currentWinners.getD d.currentWinners,
    finalWinners := u.finalWinners.getD d.finalWinners,
    predeterminedWinners := u.predeterminedWinners.getD d.predeterminedWinners,
    participants := u.participants.getD d.participants,
    selectedPrizeId := u.selectedPrizeId.getD d.selectedPrizeId,
    selectedPrizeName := u.selectedPrizeName.getD d.selectedPrizeName,
    selectedPrizeImage := u.selectedPrizeImage.getD d.selectedPrizeImage,
    selectedPrizeQuota := u.selectedPrizeQuota.getD d.selectedPrizeQuota,
    shouldStartSpinning := u.shouldStartSpinning.getD d.shouldStartSpinning,
    shouldStartSlowdown := u.shouldStartSlowdown.getD d.shouldStartSlowdown,
    showWinnerDisplay := u.showWinnerDisplay.getD d.showWinnerDisplay,
    shouldResetToReady := u.shouldResetToReady.getD d.shouldResetToReady,
    vipProcessedWinners := u.vipProcessedWinners.getD d.vipProcessedWinners,
    vipControlActive := u.vipControlActive.getD d.vipControlActive,
    drawStartTime := u.drawStartTime.getD d.drawStartTime,
    lastUpdated := some now }

/-- updateDrawingState (useFirestore.ts lines 787-828): reject an empty
update object; updateDoc merges the patch into the existing document; on
the not-found error the document is recreated with setDoc from
DEFAULT_DRAWING_STATE merged with the pending update. -/
def updateDrawingState (store : Option DrawRecord) (u : RecordPatch)
    (now : Nat) : Except String (Option DrawRecord) :=
  if u = emptyPatch then Except.error "No updates provided"
  else
    match store with
    | some d => Except.ok (some (applyPatch d u now))
    | none => Except.ok (some (applyPatch defaultDrawingState u now))

/-
  Display renderer (src/unnamed/part_001, DisplayPage).  The local state
  of the component evolves on two kinds of events: arrival of a drawing-state
  snapshot (the two effects at lines 133-164 and 167-189) and an animation
  interval tick (lines 200-226 for the multi-slot grid, 229-247 for the
  single-name view).  Random indices chosen by Math.random are parameters
  of the tick events.
-/

/-- Local state of the display component. -/
structure DisplayLocal where
  lsIsDrawing : Bool
  lsCurrentWinners : List Winner
  lsFinalWinners : List Winner
  lsPredeterminedWinners : List Winner
  lsParticipants : List Participant
  lsSelectedPrizeQuota : Nat
  rollingNames : List String
  participantsSnapshot : List Participant
  hasShownResults : Bool
  isSpinning : Bool
  currentSingleName : String
  showFinalResults : Bool
deriving DecidableEq, Repr

/-- Initial display state (useState initializers at lines 110-127). -/
def initDisplayLocal : DisplayLocal :=
  { lsIsDrawing := false, lsCurrentWinners := [], lsFinalWinners := [],
    lsPredeterminedWinners := [], lsParticipants := [],
    lsSelectedPrizeQuota := 0, rollingNames := [],
    participantsSnapshot := [], hasShownResults := false,
    isSpinning := false, currentSingleName := "", showFinalResults := false }

/-- State-synchronization effect (part_001 lines 133-164): merge the
snapshot into local state, mirror shouldStartSpinning into isSpinning, and
when shouldStartSlowdown arrives while results are not yet shown, freeze:
set showFinalResults, stop spinning, and load the predetermined winners
into the shown name slots. -/
def syncEffect (ds : DrawRecord) (l : DisplayLocal) : DisplayLocal :=
  let l1 := { l with
    lsIsDrawing := ds.isDrawing, lsCurrentWinners := ds.currentWinners,
    lsFinalWinners := ds.finalWinners,
    lsPredeterminedWinners := ds.predeterminedWinners,
    lsParticipants := ds.participants,
    lsSelectedPrizeQuota := ds.selectedPrizeQuota }
  let l2 := { l1 with isSpinning := ds.shouldStartSpinning }
  if ds.shouldStartSlowdown && !l.showFinalResults then
    let l3 := { l2 with showFinalResults := true, isSpinning := false }
    if !ds.predeterminedWinners.isEmpty then
      if ds.selectedPrizeQuota == 1 then
        { l3 with currentSingleName := ((ds.predeterminedWinners.head?).map Winner.name).getD "" }
      else
        { l3 with rollingNames := ds.predeterminedWinners.map Winner.name }
    else l3
  else l2

/-- Drawing-state-change effect (part_001 lines 167-189), reading the local
state of the same render as the sync effect: on a new draw, reset the
result flags and take the participants snapshot; when winners are cleared,
reset the result flags. -/
def drawChangeEffect (ds : DrawRecord) (lPre l : DisplayLocal) : DisplayLocal :=
  let la :=
    if ds.isDrawing && !lPre.lsIsDrawing then
      { l with
        hasShownResults := false,
        participantsSnapshot := ds.participants,
        showFinalResults := false }
    else l
  if ds.currentWinners.isEmpty && !lPre.lsCurrentWinners.isEmpty then
    { la with hasShownResults := false, showFinalResults := false }
  else la

/-- Processing of one received drawing-state snapshot: both effects run, in
source order, against the same previous local state. -/
def snapStep (ds : DrawRecord) (l : DisplayLocal) : DisplayLocal :=
  drawChangeEffect ds l (syncEffect ds l)

/-- Multi-slot animation tick (part_001 lines 200-226): while spinning with
a non-empty snapshot and quota above one, fill the drawCount slots with
names at random snapshot indices; otherwise, when results are not shown,
clear the rolling names. -/
def tickMulti (cs : List Nat) (l : DisplayLocal) : DisplayLocal :=
  if l.isSpinning && l.lsIsDrawing && !l.participantsSnapshot.isEmpty
      && !l.hasShownResults && decide (1 < l.lsSelectedPrizeQuota)
      && !l.showFinalResults then
    let len := l.participantsSnapshot.length
    let dc := min l.lsSelectedPrizeQuota len
    { l with rollingNames :=
        (List.range dc).map (fun i =>
          ((l.participantsSnapshot.get? ((cs.getD i 0) % len)).map Participant.name).getD "") }
  else if !l.showFinalResults then { l with rollingNames := [] }
  else l

/-- Single-name animation tick (part_001 lines 229-247): while spinning
with quota one, show a random snapshot name; when idle without results,
clear the shown name. -/
def tickSingle (c : Nat) (l : DisplayLocal) : DisplayLocal :=
  if l.isSpinning && l.lsIsDrawing && !l.participantsSnapshot.isEmpty
      && !l.hasShownResults && (l.lsSelectedPrizeQuota == 1)
      && !l.showFinalResults then
    { l with currentSingleName :=
        ((l.participantsSnapshot.get? (c % l.participantsSnapshot.length)).map Participant.name).getD "" }
  else if !l.lsIsDrawing && !l.showFinalResults then
    { l with currentSingleName := "" }
  else l

/-- An event observed by the display. -/
inductive DisplayEvent where
  | snap (ds : DrawRecord)
  | tickM (cs : List Nat)
  | tickS (c : Nat)
deriving DecidableEq, Repr

/-- One display transition. -/
def displayStep (l : DisplayLocal) (e : DisplayEvent) : DisplayLocal :=
  match e with
  | DisplayEvent.snap ds => snapStep ds l
  | DisplayEvent.tickM cs => tickMulti cs l
  | DisplayEvent.tickS c => tickSingle c l

/-- The display state after a sequence of events. -/
def runDisplay (evs : List DisplayEvent) (l : DisplayLocal) : DisplayLocal :=
  evs.foldl displayStep l

/-- What the main content area shows. -/
inductive ShownView where
  | ready
  | names (ns : List String)
deriving DecidableEq, Repr

/-- JavaScript truthiness chain on strings: a || b is a unless a is the
empty string. -/
def jsOrStr (a b : String) : String := if a = "" then b else a

/-- Text of slot i in the multi-slot grid (part_001 line 420): the rolling
name at i when non-empty, else the final winner name at i when revealing,
else the three-dot placeholder. -/
def slotText (l : DisplayLocal) (i : Nat) : String :=
  jsOrStr
    (jsOrStr ((l.rollingNames.get? i).getD "")
      (if l.showFinalResults then ((l.lsFinalWinners.get? i).map Winner.name).getD "" else ""))
    "..."

/-- The rendered main content (part_001 lines 322-461): Ready outside a
draw; for quota one either Ready or the single name line (line 350); for a
larger quota either Ready slots or drawCount slot texts, with drawCount =
min(prizeQuota, snapshot length || participants length || 0) (line 250). -/
def renderDisplay (l : DisplayLocal) : ShownView :=
  if !l.lsIsDrawing && !l.showFinalResults then ShownView.ready
  else
    let pq := if l.lsSelectedPrizeQuota = 0 then 1 else l.lsSelectedPrizeQuota
    if pq = 1 then
      if !l.isSpinning && !l.showFinalResults then ShownView.ready
      else
        ShownView.names
          [jsOrStr
            (jsOrStr l.currentSingleName
              (if l.showFinalResults then ((l.lsFinalWinners.get? 0).map Winner.name).getD "" else ""))
            "..."]
    else
      if !l.isSpinning && !l.showFinalResults then ShownView.ready
      else
        let dcLen :=
          if l.participantsSnapshot.length ≠ 0 then l.participantsSnapshot.length
          else l.lsParticipants.length
        ShownView.names ((List.range (min pq dcLen)).map (slotText l))

/-
  Snapshot processing (useFirestore.ts, second hook: convertTimestamp lines
  545-556, processWinner lines 559-570, processParticipant lines 573-584,
  processFirebaseData lines 587-698, handleSnapshot lines 729-762).  Raw
  Firestore document values are modelled as a small JavaScript value type;
  property access on null or undefined throws, which becomes Except.error.
-/

/-- A raw JavaScript value as it can appear in a Firestore document. -/
inductive JSVal where
  | null
  | undef
  | boolean (b : Bool)
  | num (n : Int)
  | str (s : String)
  | date (ms : Int)
  | timestamp (ms : Int)
  | arr (elems : List JSVal)
  | obj (fields : List (String × JSVal))

/-- Property access `v[k]`: throws a TypeError on null or undefined,
returns the field of an object (undefined when absent), and undefined on
every other value. -/
def getField (v : JSVal) (k : String) : Except Unit JSVal :=
  match v with
  | JSVal.null => Except.error ()
  | JSVal.undef => Except.error ()
  | JSVal.obj fs => Except.ok ((fs.lookup k).getD JSVal.undef)
  | _ => Except.ok JSVal.undef

/-- JavaScript truthiness (NaN is not modelled). -/
def isTruthy (v : JSVal) : Bool :=
  match v with
  | JSVal.null => false
  | JSVal.undef => false
  | JSVal.boolean b => b
  | JSVal.num n => n != 0
  | JSVal.str s => s != ""
  | _ => true

/-- True on every value except null and undefined. -/
def notNullish (v : JSVal) : Bool :=
  match v with
  | JSVal.null => false
  | JSVal.undef => false
  | _ => true

/-- convertTimestamp (useFirestore.ts lines 545-556): a Date passes
through; a Firestore Timestamp is converted with toDate; numbers become
valid dates; everything else falls back to new Date(), i.e. the current
time.  Host Date-string parsing is not modelled: strings take the invalid
branch and also fall back to now. -/
def convertTimestamp (now : Int) (v : JSVal) : Int :=
  match v with
  | JSVal.date ms => ms
  | JSVal.timestamp ms => ms
  | JSVal.num n => n
  | _ => now

/-- The fields of a processed winner entry that the embedding tracks.  The
source spreads the raw object, so id and name keep their raw values unless
they are falsy and get defaulted. -/
structure ProcWinner where
  id : JSVal
  name : JSVal
  wonAt : Int

/-- processWinner (useFirestore.ts lines 559-570): reading winner.wonAt
throws on a null or undefined entry; otherwise the timestamp is converted
and a falsy id or name is replaced with a generated temp id or Unknown. -/
def processWinner (now : Int) (v : JSVal) : Except Unit ProcWinner := do
  let rawWon ← getField v "wonAt"
  let rawId ← getField v "id"
  let rawName ← getField v "name"
  Except.ok
    { id := if isTruthy rawId then rawId else JSVal.str ("temp-" ++ toString now),
      name := if isTruthy rawName then rawName else JSVal.str "Unknown",
      wonAt := convertTimestamp now rawWon }

/-- The per-entry catch of processFirebaseData (lines 601-610): the
fallback record reads winner.name, which throws again on a null or
undefined entry. -/
def processWinnerFallback (now : Int) (v : JSVal) : Except Unit ProcWinner := do
  let rawName ← getField v "name"
  Except.ok
    { id := JSVal.str ("error-winner-" ++ toString now),
      name := if isTruthy rawName then rawName else JSVal.str "Unknown Winner",
      wonAt := now }

/-- One winner entry: processWinner, recovering with the per-entry fallback
when it throws. -/
def processWinnerEntry (now : Int) (v : JSVal) : Except Unit ProcWinner :=
  match processWinner now v with
  | Except.ok w => Except.ok w
  | Except.error _ => processWinnerFallback now v

/-- The fields of a processed participant entry. -/
structure ProcParticipant where
  id : JSVal
  name : JSVal
  addedAt : Int

/-- processParticipant (useFirestore.ts lines 573-584), analogous to
processWinner with addedAt. -/
def processParticipant (now : Int) (v : JSVal) : Except Unit ProcParticipant := do
  let rawAdded ← getField v "addedAt"
  let rawId ← getField v "id"
  let rawName ← getField v "name"
  Except.ok
    { id := if isTruthy rawId then rawId else JSVal.str ("temp-" ++ toString now),
      name := if isTruthy rawName then rawName else JSVal.str "Unknown",
      addedAt := convertTimestamp now rawAdded }

/-- The per-entry catch for a participant entry (lines 667-674); it reads
participant.name and throws again on null or undefined. -/
def processParticipantFallback (now : Int) (v : JSVal) :
    Except Unit ProcParticipant := do
  let rawName ← getField v "name"
  Except.ok
    { id := JSVal.str ("error-participant-" ++ toString now),
      name := if isTruthy rawName then rawName else JSVal.str "Unknown Participant",
      addedAt := now }

/-- One participant entry with its fallback. -/
def processParticipantEntry (now : Int) (v : JSVal) :
    Except Unit ProcParticipant :=
  match processParticipant now v with
  | Except.ok p => Except.ok p
  | Except.error _ => processParticipantFallback now v

/-- Outcome of processing one array field of the document. -/
inductive WinnersFieldOutcome where
  | winners (ws : List ProcWinner)
  | raw (v : JSVal)

/-- A winners array field of the document (lines 595-616 for
currentWinners; finalWinners and predeterminedWinners are identical): an
absent field keeps the default empty list; a truthy array is mapped
entry-wise, and if any entry escapes its per-entry catch the array-level
catch replaces the whole array with the empty list; any other present
value survives the initial spread unprocessed. -/
def processWinnersField (now : Int) (field : Option JSVal) :
    WinnersFieldOutcome :=
  match field with
  | none => WinnersFieldOutcome.winners []
  | some v =>
    if isTruthy v then
      match v with
      | JSVal.arr es =>
        match es.mapM (processWinnerEntry now) with
        | Except.ok ws => WinnersFieldOutcome.winners ws
        | Except.error _ => WinnersFieldOutcome.winners []
      | _ => WinnersFieldOutcome.raw v
    else WinnersFieldOutcome.raw v

/-- Outcome of processing the participants field. -/
inductive ParticipantsFieldOutcome where
  | participants (ps : List ProcParticipant)
  | raw (v : JSVal)

/-- The participants array field (lines 662-680), analogous to the winners
fields. -/
def processParticipantsField (now : Int) (field : Option JSVal) :
    ParticipantsFieldOutcome :=
  match field with
  | none => ParticipantsFieldOutcome.participants []
  | some v =>
    if isTruthy v then
      match v with
      | JSVal.arr es =>
        match es.mapM (processParticipantEntry now) with
        | Except.ok ps => ParticipantsFieldOutcome.participants ps
        | Except.error _ => ParticipantsFieldOutcome.participants []
      | _ => ParticipantsFieldOutcome.raw v
    else ParticipantsFieldOutcome.raw v

/-- The raw document fields processFirebaseData inspects; `none` means the
key is absent from doc.data(). -/
structure RawDoc where
  currentWinners : Option JSVal
  finalWinners : Option JSVal
  predeterminedWinners : Option JSVal
  participants : Option JSVal
  lastUpdated : Option JSVal

/-- The processed drawing state restricted to the fields the claims are
about; scalar fields pass through the initial spread unchanged. -/
structure ProcessedState where
  currentWinners : WinnersFieldOutcome
  finalWinners : WinnersFieldOutcome
  predeterminedWinners : WinnersFieldOutcome
  participants : ParticipantsFieldOutcome
  lastUpdated : Option Int

/-- processFirebaseData (useFirestore.ts lines 587-698): every field is
produced for every input; array fields are processed with their per-entry
and per-array recovery, lastUpdated is converted when present.  Every
sub-step is guarded by its own catch, so the outermost catch (line
693-697), which would return the default idle state, is never reached. -/
def processFirebaseData (now : Int) (d : RawDoc) : ProcessedState :=
  { currentWinners := processWinnersField now d.currentWinners,
    finalWinners := processWinnersField now d.finalWinners,
    predeterminedWinners := processWinnersField now d.predeterminedWinners,
    participants := processParticipantsField now d.participants,
    lastUpdated := d.lastUpdated.map (convertTimestamp now) }

/-
  Helper lemmas.
-/

/-- Winners whose names are all already present are never re-added by the
admin deduplication. -/
lemma uniqueNewWinners_eq_nil (existing ws : List Winner)
    (h : ∀ w ∈ ws, w.name ∈ existing.map Winner.name) :
    uniqueNewWinners existing ws = [] := by
  unfold uniqueNewWinners
  rw [List.filter_eq_nil_iff]
  intro w hw
  obtain ⟨x, hx, hxn⟩ := List.mem_map.mp (h w hw)
  simp
  exact ⟨x, hx, hxn⟩

/-- A batch tagged with the session id filters to itself. -/
lemma filter_session_self (ws : List Winner) (sid : String)
    (htag : ∀ w ∈ ws, w.drawSession = some sid) :
    ws.filter (fun w => sessionEq w.drawSession (some sid)) = ws := by
  rw [List.filter_eq_self]
  intro w hw
  rw [htag w hw]
  simp [sessionEq]

/-- Names of generated winner records are the names of the selected
participants. -/
lemma mkWinners_map_name (p : Prize) (sid : String) (now : Nat) :
    ∀ (i : Nat) (l : List Participant),
      (mkWinners p sid now i l).map Winner.name = l.map Participant.name
  | _, [] => rfl
  | i, q :: qs => by
    simp [mkWinners, mkWinners_map_name p sid now (i + 1) qs]

/-- Generated winner records are in bijection with the selected
participants. -/
lemma mkWinners_length (p : Prize) (sid : String) (now : Nat) :
    ∀ (i : Nat) (l : List Participant),
      (mkWinners p sid now i l).length = l.length
  | _, [] => rfl
  | i, q :: qs => by
    simp [mkWinners, mkWinners_length p sid now (i + 1) qs]

/-- Claim C1: finalization is idempotent per session.  With a non-empty
batch tagged with a fresh session id, the first saveWinnersToDatabase call
appends exactly the batch and reports success, a second call with the same
session id and batch finds the persisted session-tagged winners, writes
nothing, and reports already-processed success, and the admin-side name
deduplication also re-adds none of the batch. -/
theorem finalize_idempotent_per_session (db ws : List Winner) (sid : String)
    (hne : ws ≠ [])
    (htag : ∀ w ∈ ws, w.drawSession = some sid)
    (hfresh : db.filter (fun w => sessionEq w.drawSession (some sid)) = []) :
    saveWinnersToDatabase db (some sid) ws = (db ++ ws, true) ∧
    saveWinnersToDatabase (db ++ ws) (some sid) ws = (db ++ ws, true) ∧
    uniqueNewWinners (db ++ ws) ws = [] := by
  have hempty : ws.isEmpty = false := by
    cases ws with
    | nil => exact absurd rfl hne
    | cons a l => rfl
  have hposlen : 0 < ws.length := List.length_pos.mpr hne
  refine ⟨?_, ?_, ?_⟩
  · unfold saveWinnersToDatabase
    rw [hempty, hfresh]
    simp
  · unfold saveWinnersToDatabase
    rw [hempty]
    rw [List.filter_append, hfresh, filter_session_self ws sid htag]
    simp [hposlen]
  · refine uniqueNewWinners_eq_nil _ _ ?_
    intro w hw
    exact List.mem_map.mpr ⟨w, List.mem_append_right db hw, rfl⟩

/-- Concrete winner used by the C1 witness. -/
def wAlpha : Winner :=
  { id := "w1", name := "Ana", wonAt := 0, prizeId := some "p1",
    prizeName := some "Mug", drawSession := some "s1", email := none }

/-- Witness for C1 at a concrete database and batch. -/
theorem finalize_idempotent_per_session_witness :
    (([wAlpha] : List Winner) ≠ [] ∧
      (∀ w ∈ [wAlpha], w.drawSession = some "s1") ∧
      ([] : List Winner).filter (fun w => sessionEq w.drawSession (some "s1")) = []) ∧
    (saveWinnersToDatabase [] (some "s1") [wAlpha] = ([] ++ [wAlpha], true) ∧
      saveWinnersToDatabase ([] ++ [wAlpha]) (some "s1") [wAlpha] = ([] ++ [wAlpha], true) ∧
      uniqueNewWinners ([] ++ [wAlpha]) [wAlpha] = []) :=
  ⟨⟨by decide, by decide, by decide⟩,
    finalize_idempotent_per_session [] [wAlpha] "s1" (by decide) (by decide) (by decide)⟩

/-- Winner already persisted for session s1, used by the C2 evaluation. -/
def wRepeat : Winner :=
  { id := "w2", name := "Budi", wonAt := 0, prizeId := some "p1",
    prizeName := some "Mug", drawSession := some "s1", email := none }

/-- Prize with three remaining slots, used by the C2 evaluation. -/
def prizeMug : Prize :=
  { id := "p1", name := "Mug", image := none, quota := 3,
    remainingQuota := 3, createdAt := 0 }

/-- Claim C2: evaluation of the VIP finalize sequence at the failing input.
With the batch already persisted for session s1, the call adds zero winner
records (the database is unchanged), yet the prize quota is still
decremented by the full batch length, from 3 to 2, where the claim requires
max(0, 3 − 0) = 3. -/
theorem vip_repeat_finalize_still_decrements_quota :
    (vipFinalize [wRepeat] [prizeMug] (some "s1") [wRepeat] "p1").1 = [wRepeat] ∧
    (vipFinalize [wRepeat] [prizeMug] (some "s1") [wRepeat] "p1").2 =
      [{ prizeMug with remainingQuota := 2 }] ∧
    max 0 (prizeMug.remainingQuota - 0) = 3 := by
  refine ⟨by decide, by decide, by decide⟩

/-- Claim C7: clearing a revealed session empties the displayed winners and
resets the flags in the shared record while leaving the persisted winner
collection, the prizes (hence all quota decrements), and the participant
pool untouched. -/
theorem clear_winners_is_display_only (s : AppState) :
    (clearCurrentWinners s).record.currentWinners = [] ∧
    (clearCurrentWinners s).record.finalWinners = [] ∧
    (clearCurrentWinners s).record.predeterminedWinners = [] ∧
    (clearCurrentWinners s).record.showWinnerDisplay = false ∧
    (clearCurrentWinners s).record.shouldStartSlowdown = false ∧
    (clearCurrentWinners s).record.shouldStartSpinning = false ∧
    (clearCurrentWinners s).record.vipProcessedWinners = false ∧
    (clearCurrentWinners s).record.vipControlActive = false ∧
    (clearCurrentWinners s).winners = s.winners ∧
    (clearCurrentWinners s).prizes = s.prizes ∧
    (clearCurrentWinners s).participants = s.participants ∧
    (clearCurrentWinners s).record.selectedPrizeId = s.record.selectedPrizeId :=
  ⟨rfl, rfl, rfl, rfl, rfl, rfl, rfl, rfl, rfl, rfl, rfl, rfl⟩

/-- Winner batch used by the C5 race counterexample and witness. -/
def wRace : Winner :=
  { id := "w9", name := "Rina", wonAt := 0, prizeId := some "p1",
    prizeName := some "Mug", drawSession := some "s9", email := none }

/-- Counterexample to C5 as stated: inside the race window both controllers
check the same pre-write store, neither advisory flag is visible yet, and
both persist the one-winner batch — the store ends with two copies of the
batch, not exactly one, while the last quota write wins. -/
theorem race_finalize_double_persist_counterexample :
    (raceFinalize { winners := [], quota := 3, vipProcessedShared := false }
        "s9" [wRace] false).winners = [wRace, wRace] ∧
    (raceFinalize { winners := [], quota := 3, vipProcessedShared := false }
        "s9" [wRace] false).winners ≠ [wRace] ∧
    (raceFinalize { winners := [], quota := 3, vipProcessedShared := false }
        "s9" [wRace] false).quota = 2 := by
  refine ⟨by decide, by decide, by decide⟩

/-- Claim C5 (amended): when the two finalize attempts are serialized — the
writes of the VIP controller, including the shared processed flag, are
visible to the check of the admin controller — exactly one batch is
persisted and the quota is decremented exactly once, because the admin name
deduplication
finds every batch name already persisted and adds nothing. -/
theorem serialized_finalize_exactly_once
    (s : FinalizeStore) (sid : String) (ws : List Winner) (adminLocal : Bool)
    (hne : ws ≠ [])
    (htag : ∀ w ∈ ws, w.drawSession = some sid)
    (hfresh : s.winners.filter (fun w => sessionEq w.drawSession (some sid)) = []) :
    (serializedFinalize s sid ws adminLocal).winners = s.winners ++ ws ∧
    (serializedFinalize s sid ws adminLocal).quota =
      max 0 (s.quota - (ws.length : Int)) := by
  have hempty : ws.isEmpty = false := by
    cases ws with
    | nil => exact absurd rfl hne
    | cons a l => rfl
  have hvip : vipFinalizeCheck s sid ws =
      { addWinners := ws, newQuota := some (max 0 (s.quota - (ws.length : Int))),
        setVipFlag := true } := by
    unfold vipFinalizeCheck
    rw [hempty, hfresh]
    simp
  have huniq : uniqueNewWinners (s.winners ++ ws) ws = [] := by
    refine uniqueNewWinners_eq_nil _ _ ?_
    intro w hw
    exact List.mem_map.mpr ⟨w, List.mem_append_right s.winners hw, rfl⟩
  unfold serializedFinalize
  rw [hvip]
  unfold applyPending adminFinalizeCheck
  simp only [hempty, Bool.and_false, Bool.false_eq_true, if_false, huniq]
  constructor
  · simp
  · simp

/-- Witness for the amended C5 at a concrete store and batch. -/
theorem serialized_finalize_exactly_once_witness :
    (([wRace] : List Winner) ≠ [] ∧
      (∀ w ∈ [wRace], w.drawSession = some "s9") ∧
      ([] : List Winner).filter (fun w => sessionEq w.drawSession (some "s9")) = []) ∧
    ((serializedFinalize { winners := [], quota := 3, vipProcessedShared := false }
        "s9" [wRace] false).winners = [] ++ [wRace] ∧
      (serializedFinalize { winners := [], quota := 3, vipProcessedShared := false }
        "s9" [wRace] false).quota = max 0 (3 - (([wRace] : List Winner).length : Int))) :=
  ⟨⟨by decide, by decide, by decide⟩,
    serialized_finalize_exactly_once
      { winners := [], quota := 3, vipProcessedShared := false }
      "s9" [wRace] false (by decide) (by decide) (by decide)⟩

/-- First of two same-named participants for the C3 counterexample. -/
def pJohnA : Participant := { id := "a", name := "John", addedAt := 0, email := none }

/-- Second of two same-named participants for the C3 counterexample. -/
def pJohnB : Participant := { id := "b", name := "John", addedAt := 0, email := none }

/-- Prize with two remaining slots for the C3 counterexample. -/
def prizeTwoSlots : Prize :=
  { id := "p2", name := "TV", image := none, quota := 2,
    remainingQuota := 2, createdAt := 0 }

/-- Counterexample to C3 as stated: with two distinct participants that
share the display name John in the pool (a genuine permutation of the
available pool, draw count two), the committed predetermined winner list
holds two winners with the same participant identity. -/
theorem generateWinners_duplicate_names_counterexample :
    List.Perm [pJohnA, pJohnB] (availableParticipants [pJohnA, pJohnB] []) ∧
    drawCountOf (some prizeTwoSlots) 10
      (availableParticipants [pJohnA, pJohnB] []).length = 2 ∧
    ((generateWinners (some prizeTwoSlots) (availableParticipants [pJohnA, pJohnB] [])
        [pJohnA, pJohnB] 2 "s2" 0).map Winner.name) = ["John", "John"] ∧
    ¬ ((generateWinners (some prizeTwoSlots) (availableParticipants [pJohnA, pJohnB] [])
        [pJohnA, pJohnB] 2 "s2" 0).map Winner.name).Nodup := by
  refine ⟨by decide, by decide, by decide, by decide⟩

/-- Claim C3 (amended): for every committed session the predetermined
winner list has length min(drawCount, availablePoolSize) with drawCount =
min(remainingQuota, availablePoolSize), for any permutation the shuffle
produces; and the list has pairwise-distinct display names provided the
available pool itself has pairwise-distinct display names. -/
theorem generateWinners_length_and_nodup
    (p : Prize) (participants : List Participant) (currentWinners : List Winner)
    (shuffled : List Participant) (sid : String) (now : Nat) (mdc : Int)
    (hq : 0 ≤ p.remainingQuota)
    (hperm : shuffled.Perm (availableParticipants participants currentWinners)) :
    ((generateWinners (some p) (availableParticipants participants currentWinners)
        shuffled
        (drawCountOf (some p) mdc (availableParticipants participants currentWinners).length)
        sid now).length : Int)
      = min (drawCountOf (some p) mdc (availableParticipants participants currentWinners).length)
          ((availableParticipants participants currentWinners).length : Int) ∧
    (((availableParticipants participants currentWinners).map Participant.name).Nodup →
      ((generateWinners (some p) (availableParticipants participants currentWinners)
          shuffled
          (drawCountOf (some p) mdc (availableParticipants participants currentWinners).length)
          sid now).map Winner.name).Nodup) := by
  have hdc : 0 ≤ drawCountOf (some p) mdc
      (availableParticipants participants currentWinners).length := by
    unfold drawCountOf
    exact le_min hq (by positivity)
  rcases hA : availableParticipants participants currentWinners with _ | ⟨a, A⟩
  · rw [hA] at hperm
    have hsh : shuffled = [] := List.Perm.eq_nil hperm
    subst hsh
    constructor
    · simp [generateWinners, drawCountOf]
      exact hq
    · intro _
      simp [generateWinners]
  · have hAne : ¬ (a :: A).isEmpty = true := by simp
    have hlen : shuffled.length = (a :: A).length := by
      rw [hA] at hperm
      exact hperm.length_eq
    rw [hA] at hdc
    have hslice : jsSliceTo shuffled
        (drawCountOf (some p) mdc (a :: A).length) =
        shuffled.take (drawCountOf (some p) mdc (a :: A).length).toNat := by
      unfold jsSliceTo
      rw [if_neg (by omega)]
    have hgen : generateWinners (some p) (a :: A) shuffled
        (drawCountOf (some p) mdc (a :: A).length) sid now =
        mkWinners p sid now 0
          (shuffled.take (drawCountOf (some p) mdc (a :: A).length).toNat) := by
      show (if (a :: A).isEmpty = true then []
        else mkWinners p sid now 0
          (jsSliceTo shuffled (drawCountOf (some p) mdc (a :: A).length))) = _
      rw [if_neg hAne, hslice]
    have hcast : ((drawCountOf (some p) mdc (a :: A).length).toNat : Int) =
        drawCountOf (some p) mdc (a :: A).length := Int.toNat_of_nonneg hdc
    constructor
    · rw [hgen, mkWinners_length, List.length_take, hlen]
      push_cast
      rw [hcast]
    · intro hnd
      rw [hgen, mkWinners_map_name, List.map_take]
      have hpermn : (shuffled.map Participant.name).Perm
          ((a :: A).map Participant.name) := by
        rw [hA] at hperm
        exact hperm.map Participant.name
      have hnds : (shuffled.map Participant.name).Nodup :=
        (hpermn.nodup_iff).mpr hnd
      exact List.Nodup.sublist (List.take_sublist _ _) hnds

/-- Participant Ana for the C3 witness. -/
def pAna : Participant := { id := "c", name := "Ana", addedAt := 0, email := none }

/-- Participant Budi for the C3 witness. -/
def pBudi : Participant := { id := "d", name := "Budi", addedAt := 0, email := none }

/-- Prize with one remaining slot for the C3 witness. -/
def prizeOneSlot : Prize :=
  { id := "p3", name := "Hat", image := none, quota := 1,
    remainingQuota := 1, createdAt := 0 }

/-- Witness for the amended C3 at a concrete pool and a non-identity
permutation. -/
theorem generateWinners_length_and_nodup_witness :
    (0 ≤ prizeOneSlot.remainingQuota ∧
      ([pBudi, pAna] : List Participant).Perm
        (availableParticipants [pAna, pBudi] [])) ∧
    (((generateWinners (some prizeOneSlot) (availableParticipants [pAna, pBudi] [])
        [pBudi, pAna]
        (drawCountOf (some prizeOneSlot) 10
          (availableParticipants [pAna, pBudi] []).length) "s3" 0).length : Int)
      = min (drawCountOf (some prizeOneSlot) 10
            (availableParticipants [pAna, pBudi] []).length)
          ((availableParticipants [pAna, pBudi] []).length : Int) ∧
      (((availableParticipants [pAna, pBudi] []).map Participant.name).Nodup →
        ((generateWinners (some prizeOneSlot) (availableParticipants [pAna, pBudi] [])
          [pBudi, pAna]
          (drawCountOf (some prizeOneSlot) 10
            (availableParticipants [pAna, pBudi] []).length) "s3" 0).map Winner.name).Nodup)) :=
  ⟨⟨by decide, by decide⟩,
    generateWinners_length_and_nodup prizeOneSlot [pAna, pBudi] [] [pBudi, pAna]
      "s3" 0 10 (by decide) (by decide)⟩

/-- Validation never passes while any of the four failure conditions holds. -/
lemma validateDraw_ne_none (va : Bool) (vs : VipStatus) (sp : Option Prize)
    (alen : Nat) (dc : Int)
    (h : sp = none ∨ (∃ p, sp = some p ∧ p.remainingQuota = 0) ∨ alen = 0 ∨ dc = 0) :
    validateDraw va vs sp alen dc ≠ none := by
  unfold validateDraw
  by_cases hvip : (va && (vs == VipStatus.active)) = true
  · simp [hvip]
  · rw [if_neg hvip]
    rcases sp with _ | p
    · simp
    · rcases h with h | ⟨q, hq, hq0⟩ | h | h
      · exact absurd h (by simp)
      · have : p = q := by injection hq
        subst this
        simp [hq0]
      · by_cases hq0 : p.remainingQuota = 0 <;> simp [hq0, h]
      · by_cases hq0 : p.remainingQuota = 0
        · simp [hq0]
        · by_cases ha : alen = 0 <;> simp [hq0, ha, h]

/-- Claim C8: any of the four draw-start validation failures — no prize
selected, zero remaining quota on the selected prize, empty available pool,
zero computed draw count — makes handleDrawClick return an operator message
with the application state exactly unchanged: nothing is written to the
shared record or any collection. -/
theorem draw_validation_rejected_before_write
    (s : AppState) (vipActive : Bool) (vipStatus : VipStatus) (mdc : Int)
    (shuffled : List Participant) (sid : String) (now : Nat)
    (hfail :
      selectedPrizeOf s = none ∨
      (∃ p, selectedPrizeOf s = some p ∧ p.remainingQuota = 0) ∨
      (availableParticipants s.participants s.record.currentWinners).length = 0 ∨
      drawCountOf (selectedPrizeOf s) mdc
        (availableParticipants s.participants s.record.currentWinners).length = 0) :
    ∃ m, handleDrawClick s vipActive vipStatus mdc shuffled sid now = (s, some m) := by
  unfold handleDrawClick
  by_cases hv : (vipActive && !(vipStatus == VipStatus.completed)) = true
  · rw [if_pos hv]
    exact ⟨_, rfl⟩
  · rw [if_neg hv]
    rcases hval : validateDraw vipActive vipStatus (selectedPrizeOf s)
        (availableParticipants s.participants s.record.currentWinners).length
        (drawCountOf (selectedPrizeOf s) mdc
          (availableParticipants s.participants s.record.currentWinners).length)
      with _ | m
    · exact absurd hval (validateDraw_ne_none _ _ _ _ _ hfail)
    · exact ⟨m, rfl⟩

/-- Application state with no prize selected, for the C8 witness. -/
def sNoPrize : AppState :=
  { record := defaultDrawingState, winners := [], prizes := [],
    participants := [], vipProcessedLocal := false, vipSessionLocal := none }

/-- Witness for C8: with no prize selected the click is rejected with a
message and the state is unchanged. -/
theorem draw_validation_rejected_before_write_witness :
    selectedPrizeOf sNoPrize = none ∧
    ∃ m, handleDrawClick sNoPrize false VipStatus.idle 10 [] "s4" 0 =
      (sNoPrize, some m) :=
  ⟨rfl, draw_validation_rejected_before_write sNoPrize false VipStatus.idle 10 [] "s4" 0
    (Or.inl rfl)⟩

/-- Claim C9: a publish against a missing shared record is recovered by
recreating the record from the default idle state merged with the pending
patch: the call succeeds, every patched field carries the patched value,
every unpatched field carries its idle default (shown for the
representative fields), and the update is stamped — nothing is dropped. -/
theorem updateDrawingState_notfound_recovery (u : RecordPatch) (now : Nat)
    (h : u ≠ emptyPatch) :
    updateDrawingState none u now =
      Except.ok (some (applyPatch defaultDrawingState u now)) ∧
    (∀ ws, u.currentWinners = some ws →
      (applyPatch defaultDrawingState u now).currentWinners = ws) ∧
    (u.currentWinners = none →
      (applyPatch defaultDrawingState u now).currentWinners = []) ∧
    (∀ b, u.shouldStartSlowdown = some b →
      (applyPatch defaultDrawingState u now).shouldStartSlowdown = b) ∧
    (u.shouldStartSlowdown = none →
      (applyPatch defaultDrawingState u now).shouldStartSlowdown = false) ∧
    (∀ pid, u.selectedPrizeId = some pid →
      (applyPatch defaultDrawingState u now).selectedPrizeId = pid) ∧
    (u.isDrawing = none →
      (applyPatch defaultDrawingState u now).isDrawing = false) ∧
    (applyPatch defaultDrawingState u now).lastUpdated = some now := by
  refine ⟨?_, ?_, ?_, ?_, ?_, ?_, ?_, rfl⟩
  · unfold updateDrawingState
    rw [if_neg h]
  · intro ws hws
    simp [applyPatch, hws]
  · intro h0
    simp [applyPatch, h0, defaultDrawingState]
  · intro b hb
    simp [applyPatch, hb]
  · intro h0
    simp [applyPatch, h0, defaultDrawingState]
  · intro pid hp
    simp [applyPatch, hp]
  · intro h0
    simp [applyPatch, h0, defaultDrawingState]

/-- Patch used by the C9 witness: show the winner display with one winner. -/
def patchShow : RecordPatch :=
  { emptyPatch with
    showWinnerDisplay := some true, currentWinners := some [wAlpha] }

/-- Witness for C9 at a concrete non-empty patch. -/
theorem updateDrawingState_notfound_recovery_witness :
    patchShow ≠ emptyPatch ∧
    (updateDrawingState none patchShow 7 =
        Except.ok (some (applyPatch defaultDrawingState patchShow 7)) ∧
      (∀ ws, patchShow.currentWinners = some ws →
        (applyPatch defaultDrawingState patchShow 7).currentWinners = ws) ∧
      (patchShow.currentWinners = none →
        (applyPatch defaultDrawingState patchShow 7).currentWinners = []) ∧
      (∀ b, patchShow.shouldStartSlowdown = some b →
        (applyPatch defaultDrawingState patchShow 7).shouldStartSlowdown = b) ∧
      (patchShow.shouldStartSlowdown = none →
        (applyPatch defaultDrawingState patchShow 7).shouldStartSlowdown = false) ∧
      (∀ pid, patchShow.selectedPrizeId = some pid →
        (applyPatch defaultDrawingState patchShow 7).selectedPrizeId = pid) ∧
      (patchShow.isDrawing = none →
        (applyPatch defaultDrawingState patchShow 7).isDrawing = false) ∧
      (applyPatch defaultDrawingState patchShow 7).lastUpdated = some 7) :=
  ⟨by decide, updateDrawingState_notfound_recovery patchShow 7 (by decide)⟩

/-- Total property read used to describe the behavior of processWinner on
values
whose field reads cannot throw. -/
def getFieldD (v : JSVal) (k : String) : JSVal :=
  match v with
  | JSVal.obj fs => (fs.lookup k).getD JSVal.undef
  | _ => JSVal.undef

/-- The record processWinner produces on any non-nullish entry. -/
def normalizeWinner (now : Int) (v : JSVal) : ProcWinner :=
  { id := if isTruthy (getFieldD v "id") then getFieldD v "id"
      else JSVal.str ("temp-" ++ toString now),
    name := if isTruthy (getFieldD v "name") then getFieldD v "name"
      else JSVal.str "Unknown",
    wonAt := convertTimestamp now (getFieldD v "wonAt") }

/-- On a non-nullish entry processWinner succeeds, so the per-entry catch
is not taken and the entry is normalized with its defaults. -/
lemma processWinnerEntry_notNullish (now : Int) (v : JSVal)
    (h : notNullish v = true) :
    processWinnerEntry now v = Except.ok (normalizeWinner now v) := by
  cases v <;> simp_all [notNullish] <;> rfl

/-- On a nullish entry processWinner throws and the per-entry fallback,
which reads the entry name again, throws as well. -/
lemma processWinnerEntry_nullish (now : Int) (v : JSVal)
    (h : notNullish v = false) :
    processWinnerEntry now v = Except.error () := by
  cases v <;> simp_all [notNullish] <;> rfl

/-- Mapping winner entries succeeds on a list of non-nullish entries and
yields the normalizations. -/
lemma mapM_winnerEntries_ok (now : Int) :
    ∀ (es : List JSVal), (∀ v ∈ es, notNullish v = true) →
      es.mapM (processWinnerEntry now) = Except.ok (es.map (normalizeWinner now))
  | [], _ => rfl
  | v :: es, h => by
    rw [List.mapM_cons, processWinnerEntry_notNullish now v (h v (List.mem_cons_self v es)),
      mapM_winnerEntries_ok now es (fun x hx => h x (List.mem_cons_of_mem v hx))]
    rfl

/-- Mapping winner entries fails as soon as the list holds a null entry. -/
lemma mapM_winnerEntries_err (now : Int) :
    ∀ (es : List JSVal), JSVal.null ∈ es →
      es.mapM (processWinnerEntry now) = Except.error ()
  | [], h => absurd h (List.not_mem_nil _)
  | v :: es, h => by
    rw [List.mapM_cons]
    rcases hv : processWinnerEntry now v with e | w
    · rfl
    · have hvn : v ≠ JSVal.null := by
        intro hnull
        subst hnull
        rw [processWinnerEntry_nullish now JSVal.null rfl] at hv
        exact Except.noConfusion hv
      have hmem : JSVal.null ∈ es := by
        rcases List.mem_cons.mp h with h1 | h1
        · exact absurd h1.symm hvn
        · exact h1
      rw [mapM_winnerEntries_err now es hmem]
      rfl

/-- On a nullish participant entry processParticipant throws and the
per-entry fallback throws as well. -/
lemma processParticipantEntry_nullish (now : Int) (v : JSVal)
    (h : notNullish v = false) :
    processParticipantEntry now v = Except.error () := by
  cases v <;> simp_all [notNullish] <;> rfl

/-- Mapping participant entries fails as soon as the list holds a null
entry. -/
lemma mapM_participantEntries_err (now : Int) :
    ∀ (es : List JSVal), JSVal.null ∈ es →
      es.mapM (processParticipantEntry now) = Except.error ()
  | [], h => absurd h (List.not_mem_nil _)
  | v :: es, h => by
    rw [List.mapM_cons]
    rcases hv : processParticipantEntry now v with e | w
    · rfl
    · have hvn : v ≠ JSVal.null := by
        intro hnull
        subst hnull
        rw [processParticipantEntry_nullish now JSVal.null rfl] at hv
        exact Except.noConfusion hv
      have hmem : JSVal.null ∈ es := by
        rcases List.mem_cons.mp h with h1 | h1
        · exact absurd h1.symm hvn
        · exact h1
      rw [mapM_participantEntries_err now es hmem]
      rfl

/-- A winners array whose entries are all non-nullish is processed
entry-wise to the normalized records. -/
lemma processWinnersField_ok (now : Int) (es : List JSVal)
    (h : ∀ v ∈ es, notNullish v = true) :
    processWinnersField now (some (JSVal.arr es)) =
      WinnersFieldOutcome.winners (es.map (normalizeWinner now)) := by
  show (match es.mapM (processWinnerEntry now) with
    | Except.ok ws => WinnersFieldOutcome.winners ws
    | Except.error _ => WinnersFieldOutcome.winners []) = _
  rw [mapM_winnerEntries_ok now es h]

/-- A winners array holding a null entry is replaced, whole, by the empty
list: the per-entry fallback dies on the same null and the array-level
catch empties the field. -/
lemma processWinnersField_nullEntry (now : Int) (es : List JSVal)
    (h : JSVal.null ∈ es) :
    processWinnersField now (some (JSVal.arr es)) =
      WinnersFieldOutcome.winners [] := by
  show (match es.mapM (processWinnerEntry now) with
    | Except.ok ws => WinnersFieldOutcome.winners ws
    | Except.error _ => WinnersFieldOutcome.winners []) = _
  rw [mapM_winnerEntries_err now es h]

/-- A participants array holding a null entry is likewise replaced by the
empty list. -/
lemma processParticipantsField_nullEntry (now : Int) (es : List JSVal)
    (h : JSVal.null ∈ es) :
    processParticipantsField now (some (JSVal.arr es)) =
      ParticipantsFieldOutcome.participants [] := by
  show (match es.mapM (processParticipantEntry now) with
    | Except.ok ps => ParticipantsFieldOutcome.participants ps
    | Except.error _ => ParticipantsFieldOutcome.participants []) = _
  rw [mapM_participantEntries_err now es h]

/-- A well-formed raw winner object, used by the C10 counterexample and
witness. -/
def rawGoodWinner : JSVal :=
  JSVal.obj [("id", JSVal.str "w1"), ("name", JSVal.str "Ana"),
    ("wonAt", JSVal.timestamp 100)]

/-- Raw document whose currentWinners array holds a null entry followed by
a well-formed entry. -/
def rawDocNullEntry : RawDoc :=
  { currentWinners := some (JSVal.arr [JSVal.null, rawGoodWinner]),
    finalWinners := none, predeterminedWinners := none,
    participants := none, lastUpdated := none }

/-- The safe fallback record the claim says a failing entry is replaced
with (the shape built by the per-entry catch at useFirestore.ts lines
603-609). -/
def claimedFallbackWinner : ProcWinner :=
  { id := JSVal.str "error-winner-0", name := JSVal.str "Unknown Winner",
    wonAt := 0 }

/-- Counterexample to C10 as stated: on a currentWinners array [null,
well-formed] the null entry is not replaced by a safe fallback record —
the per-entry fallback itself throws reading null.name — and the whole
array, including the well-formed second entry, is replaced by the empty
list. -/
theorem processFirebaseData_null_entry_counterexample :
    (processFirebaseData 0 rawDocNullEntry).currentWinners =
      WinnersFieldOutcome.winners [] ∧
    WinnersFieldOutcome.winners ([] : List ProcWinner) ≠
      WinnersFieldOutcome.winners [claimedFallbackWinner, normalizeWinner 0 rawGoodWinner] := by
  constructor
  · rfl
  · intro hcontra
    injection hcontra with h2
    exact List.noConfusion h2

/-- Claim C10 (amended): snapshot processing is total with defaults — a
missing winners field defaults to the empty list; an array of non-nullish
entries is normalized entry-wise, each resulting record carrying a truthy
name; an array holding a null entry is replaced, whole, by the empty list,
for winners and participants alike, because the per-entry fallback itself
fails on null. -/
theorem processFirebaseData_total_with_fallbacks
    (now : Int) (d : RawDoc) (es : List JSVal) :
    (d.currentWinners = none →
      (processFirebaseData now d).currentWinners = WinnersFieldOutcome.winners []) ∧
    (d.currentWinners = some (JSVal.arr es) → (∀ v ∈ es, notNullish v = true) →
      (processFirebaseData now d).currentWinners =
        WinnersFieldOutcome.winners (es.map (normalizeWinner now))) ∧
    (d.currentWinners = some (JSVal.arr es) → JSVal.null ∈ es →
      (processFirebaseData now d).currentWinners = WinnersFieldOutcome.winners []) ∧
    (d.participants = some (JSVal.arr es) → JSVal.null ∈ es →
      (processFirebaseData now d).participants =
        ParticipantsFieldOutcome.participants []) ∧
    (∀ v ∈ es, notNullish v = true →
      processWinnerEntry now v = Except.ok (normalizeWinner now v) ∧
      isTruthy (normalizeWinner now v).name = true) := by
  refine ⟨?_, ?_, ?_, ?_, ?_⟩
  · intro h
    show processWinnersField now d.currentWinners = _
    rw [h]
    rfl
  · intro h hall
    show processWinnersField now d.currentWinners = _
    rw [h]
    exact processWinnersField_ok now es hall
  · intro h hnull
    show processWinnersField now d.currentWinners = _
    rw [h]
    exact processWinnersField_nullEntry now es hnull
  · intro h hnull
    show processParticipantsField now d.participants = _
    rw [h]
    exact processParticipantsField_nullEntry now es hnull
  · intro v _ hnn
    refine ⟨processWinnerEntry_notNullish now v hnn, ?_⟩
    by_cases hT : isTruthy (getFieldD v "name") = true
    · simp only [normalizeWinner]
      rw [if_pos hT]
      exact hT
    · simp only [normalizeWinner]
      rw [if_neg hT]
      rfl

/-- Raw document mixing a well-formed winner entry with a null participant
entry, for the C10 witness. -/
def rawDocMixed : RawDoc :=
  { currentWinners := some (JSVal.arr [rawGoodWinner]),
    finalWinners := none, predeterminedWinners := none,
    participants := some (JSVal.arr [JSVal.null]), lastUpdated := none }

/-- Witness for the amended C10: the well-formed winner entry is normalized
and the null participant entry empties its array. -/
theorem processFirebaseData_total_with_fallbacks_witness :
    (rawDocMixed.currentWinners = some (JSVal.arr [rawGoodWinner]) ∧
      (∀ v ∈ [rawGoodWinner], notNullish v = true) ∧
      rawDocMixed.participants = some (JSVal.arr [JSVal.null]) ∧
      JSVal.null ∈ [JSVal.null]) ∧
    (processFirebaseData 0 rawDocMixed).currentWinners =
      WinnersFieldOutcome.winners ([rawGoodWinner].map (normalizeWinner 0)) ∧
    (processFirebaseData 0 rawDocMixed).participants =
      ParticipantsFieldOutcome.participants [] :=
  ⟨⟨rfl, fun v hv => by rcases List.mem_singleton.mp hv with rfl; rfl, rfl,
      List.mem_cons_self _ _⟩,
    (processFirebaseData_total_with_fallbacks 0 rawDocMixed [rawGoodWinner]).2.1 rfl
      (fun v hv => by rcases List.mem_singleton.mp hv with rfl; rfl),
    (processFirebaseData_total_with_fallbacks 0 rawDocMixed [JSVal.null]).2.2.2.1 rfl
      (List.mem_cons_self _ _)⟩

/-- Invariant of the display while no slowdown has been observed: the
frozen-reveal flag is off, and every name the animation can show comes from
the allowed participant names (or is the empty placeholder). -/
def DisplayInv (allowed : List String) (l : DisplayLocal) : Prop :=
  l.showFinalResults = false ∧
  (∀ q ∈ l.participantsSnapshot, q.name ∈ allowed) ∧
  (∀ n ∈ l.rollingNames, n = "" ∨ n ∈ allowed) ∧
  (l.currentSingleName = "" ∨ l.currentSingleName ∈ allowed)

/-- A snapshot without the slowdown flag preserves the display invariant. -/
lemma snapStep_inv (allowed : List String) (ds : DrawRecord) (l : DisplayLocal)
    (hds : ds.shouldStartSlowdown = false)
    (hp : ∀ q ∈ ds.participants, q.name ∈ allowed)
    (hl : DisplayInv allowed l) : DisplayInv allowed (snapStep ds l) := by
  unfold DisplayInv at hl ⊢
  obtain ⟨h1, h2, h3, h4⟩ := hl
  unfold snapStep syncEffect drawChangeEffect
  rw [hds]
  simp only [Bool.false_and, Bool.false_eq_true, if_false]
  split_ifs with hc1 hc2 hc2
  · exact ⟨rfl, hp, h3, h4⟩
  · exact ⟨rfl, h2, h3, h4⟩
  · exact ⟨rfl, hp, h3, h4⟩
  · exact ⟨h1, h2, h3, h4⟩

/-- A multi-slot animation tick preserves the display invariant: it only
copies names out of the participants snapshot. -/
lemma tickMulti_inv (allowed : List String) (cs : List Nat) (l : DisplayLocal)
    (hl : DisplayInv allowed l) : DisplayInv allowed (tickMulti cs l) := by
  unfold DisplayInv at hl ⊢
  obtain ⟨h1, h2, h3, h4⟩ := hl
  unfold tickMulti
  split_ifs with hc1 hc2
  · refine ⟨h1, h2, ?_, h4⟩
    intro n hn
    obtain ⟨i, _, hf⟩ := List.mem_map.mp hn
    rcases hq : l.participantsSnapshot.get? ((cs.getD i 0) % l.participantsSnapshot.length)
      with _ | q
    · rw [hq] at hf
      exact Or.inl hf.symm
    · rw [hq] at hf
      exact Or.inr (hf ▸ h2 q (List.get?_mem hq))
  · refine ⟨h1, h2, ?_, h4⟩
    intro n hn
    exact absurd hn (List.not_mem_nil n)
  · exact ⟨h1, h2, h3, h4⟩

/-- A single-name animation tick preserves the display invariant. -/
lemma tickSingle_inv (allowed : List String) (c : Nat) (l : DisplayLocal)
    (hl : DisplayInv allowed l) : DisplayInv allowed (tickSingle c l) := by
  unfold DisplayInv at hl ⊢
  obtain ⟨h1, h2, h3, h4⟩ := hl
  unfold tickSingle
  split_ifs with hc1 hc2
  · refine ⟨h1, h2, h3, ?_⟩
    rcases hq : l.participantsSnapshot.get? (c % l.participantsSnapshot.length)
      with _ | q
    · exact Or.inl rfl
    · exact Or.inr (h2 q (List.get?_mem hq))
  · exact ⟨h1, h2, h3, Or.inl rfl⟩
  · exact ⟨h1, h2, h3, h4⟩

/-- The initial display state satisfies the invariant. -/
lemma initDisplayLocal_inv (allowed : List String) :
    DisplayInv allowed initDisplayLocal := by
  unfold DisplayInv initDisplayLocal
  exact ⟨rfl, by simp, by simp, Or.inl rfl⟩

/-- The invariant is preserved along any event trace whose snapshots never
carry the slowdown flag and draw their participants from the allowed
names. -/
lemma runDisplay_inv (allowed : List String) :
    ∀ (evs : List DisplayEvent) (l : DisplayLocal),
      (∀ e ∈ evs, ∀ ds, e = DisplayEvent.snap ds →
        ds.shouldStartSlowdown = false ∧ ∀ q ∈ ds.participants, q.name ∈ allowed) →
      DisplayInv allowed l → DisplayInv allowed (runDisplay evs l)
  | [], _, _, hl => hl
  | e :: evs, l, h, hl => by
    have hstep : DisplayInv allowed (displayStep l e) := by
      cases e with
      | snap ds =>
        have hds := h _ (List.mem_cons_self _ _) ds rfl
        exact snapStep_inv allowed ds l hds.1 hds.2 hl
      | tickM cs => exact tickMulti_inv allowed cs l hl
      | tickS c => exact tickSingle_inv allowed c l hl
    exact runDisplay_inv allowed evs (displayStep l e)
      (fun e2 he2 => h e2 (List.mem_cons_of_mem _ he2)) hstep

/-- The single-name line shows the placeholder or an allowed name. -/
lemma singleText_allowed (allowed : List String) (l : DisplayLocal)
    (h4 : l.currentSingleName = "" ∨ l.currentSingleName ∈ allowed) :
    jsOrStr (jsOrStr l.currentSingleName "") "..." = "..." ∨
    jsOrStr (jsOrStr l.currentSingleName "") "..." ∈ allowed := by
  by_cases hs : l.currentSingleName = ""
  · left
    simp [jsOrStr, hs]
  · right
    rcases h4 with h4 | h4
    · exact absurd h4 hs
    · simpa [jsOrStr, hs] using h4

/-- While the reveal flag is off, every slot shows the placeholder or an
allowed rolling name. -/
lemma slotText_allowed (allowed : List String) (l : DisplayLocal)
    (h1 : l.showFinalResults = false)
    (h3 : ∀ n ∈ l.rollingNames, n = "" ∨ n ∈ allowed) (i : Nat) :
    slotText l i = "..." ∨ slotText l i ∈ allowed := by
  unfold slotText
  rw [h1]
  rcases hq : l.rollingNames.get? i with _ | s
  · left
    simp [jsOrStr]
  · rcases h3 s (List.get?_mem hq) with hs | hs
    · left
      simp [jsOrStr, hs]
    · by_cases hse : s = ""
      · left
        simp [jsOrStr, hse]
      · right
        simpa [jsOrStr, hse] using hs

/-- Under the invariant the rendered view is Ready or a list of strings
each of which is the placeholder or an allowed participant name — never the
frozen reveal of predetermined or final winners. -/
lemma renderDisplay_shows (allowed : List String) (l : DisplayLocal)
    (h : DisplayInv allowed l) :
    renderDisplay l = ShownView.ready ∨
    ∃ ns, renderDisplay l = ShownView.names ns ∧
      ∀ x ∈ ns, x = "..." ∨ x ∈ allowed := by
  unfold DisplayInv at h
  obtain ⟨h1, h2, h3, h4⟩ := h
  unfold renderDisplay
  rw [h1]
  simp only [Bool.not_false, Bool.and_true, Bool.false_eq_true, if_false]
  split_ifs
  all_goals first
    | exact Or.inl rfl
    | (refine Or.inr ⟨_, rfl, ?_⟩
       intro x hx
       rw [List.mem_singleton] at hx
       subst hx
       exact singleText_allowed allowed l h4)
    | (refine Or.inr ⟨_, rfl, ?_⟩
       intro x hx
       obtain ⟨i, _, hf⟩ := List.mem_map.mp hx
       subst hf
       exact slotText_allowed allowed l h1 h3 i)

/-- Claim C6: along any trace of shared-record snapshots in which the
slowdown flag is never set (idle, committed and spinning phases) and whose
pool snapshots stay within the allowed names, the display never activates
the frozen reveal, and what it renders is Ready or cosmetic names drawn
from the participants snapshot (with the ... placeholder) — the
predetermined winners are never rendered as the reveal. -/
theorem display_no_reveal_before_slowdown (evs : List DisplayEvent)
    (allowed : List String)
    (h : ∀ e ∈ evs, ∀ ds, e = DisplayEvent.snap ds →
      ds.shouldStartSlowdown = false ∧ ∀ q ∈ ds.participants, q.name ∈ allowed) :
    (runDisplay evs initDisplayLocal).showFinalResults = false ∧
    (renderDisplay (runDisplay evs initDisplayLocal) = ShownView.ready ∨
      ∃ ns, renderDisplay (runDisplay evs initDisplayLocal) = ShownView.names ns ∧
        ∀ x ∈ ns, x = "..." ∨ x ∈ allowed) := by
  have hinv : DisplayInv allowed (runDisplay evs initDisplayLocal) :=
    runDisplay_inv allowed evs initDisplayLocal h (initDisplayLocal_inv allowed)
  exact ⟨hinv.1, renderDisplay_shows allowed _ hinv⟩

/-- Snapshot of a committed and spinning session, slowdown not yet set,
with a one-participant pool and a nonempty predetermined list, for the C6
witness. -/
def dsSpin : DrawRecord :=
  { defaultDrawingState with
    isDrawing := true, shouldStartSpinning := true, selectedPrizeQuota := 2,
    participants := [pAna], predeterminedWinners := [wAlpha],
    finalWinners := [wAlpha] }

/-- Witness for C6 on a concrete spinning trace. -/
theorem display_no_reveal_before_slowdown_witness :
    (∀ e ∈ [DisplayEvent.snap dsSpin, DisplayEvent.tickM [0, 0]], ∀ ds,
        e = DisplayEvent.snap ds →
        ds.shouldStartSlowdown = false ∧
        ∀ q ∈ ds.participants, q.name ∈ ["Ana"]) ∧
    ((runDisplay [DisplayEvent.snap dsSpin, DisplayEvent.tickM [0, 0]]
        initDisplayLocal).showFinalResults = false ∧
      (renderDisplay (runDisplay [DisplayEvent.snap dsSpin, DisplayEvent.tickM [0, 0]]
          initDisplayLocal) = ShownView.ready ∨
        ∃ ns, renderDisplay (runDisplay [DisplayEvent.snap dsSpin, DisplayEvent.tickM [0, 0]]
            initDisplayLocal) = ShownView.names ns ∧
          ∀ x ∈ ns, x = "..." ∨ x ∈ ["Ana"])) := by
  have hproof : ∀ e ∈ [DisplayEvent.snap dsSpin, DisplayEvent.tickM [0, 0]], ∀ ds,
      e = DisplayEvent.snap ds →
      ds.shouldStartSlowdown = false ∧
      ∀ q ∈ ds.participants, q.name ∈ ["Ana"] := by
    intro e he ds hds
    rcases List.mem_cons.mp he with rfl | he2
    · injection hds with h
      subst h
      exact ⟨rfl, by decide⟩
    · rcases List.mem_singleton.mp he2 with rfl
      cases hds
  exact ⟨hproof, display_no_reveal_before_slowdown
    [DisplayEvent.snap dsSpin, DisplayEvent.tickM [0, 0]] ["Ana"] hproof⟩
